import Mathlib

/-!
# Verification of the `process` supervisor state machine

Shallow embedding of `process.go` (package `process`): a supervisor for a
single external OS process, driven by a cooperative state-machine runner
(`state.Run`).  Each Go state method (`starting`, `running`, `stopping`,
`killing`, `backoff`, `restarting`, `failed`, `stopped`) becomes a Lean
function on the `Process` record.  Interactions with the operating system
(the outcome of `cmd.Start()`, of `Process.Signal`, and which arm of each
`select` fires) are inputs chosen by the environment, modelled as explicit
observation arguments; each state's observation type lists exactly the arms
of that state's `select` statement.
-/

set_option maxHeartbeats 1000000

/-- Errors carried in `LastError` (Go `error` values; `none` models `nil`).
`osError` stands for any error produced by the OS layer (spawn failures,
signal-send failures, child exit statuses); `killFailed` is the error
synthesized by `killing` via `fmt.Errorf("failed to kill process")`;
`maxStartAttemptsReached prev` is the error synthesized by `backoff` via
`fmt.Errorf("maximum start attempts reached (last error: %v)", p.LastError)`,
wrapping the previous `LastError`. -/
inductive Err where
  | osError (msg : String)
  | killFailed
  | maxStartAttemptsReached (prev : Option Err)

/-- Identifiers of the supervisor states (the Go state methods). -/
inductive StateId where
  | starting
  | running
  | stopping
  | killing
  | backoff
  | restarting
  | failed
  | stopped
deriving DecidableEq, Repr

/-- The `Process` struct of `process.go`.  Go `int` fields become `Int`
(callers may store negative values).  The non-data fields (`Stdout`,
`Stderr`, `State`, `Stop`, `cmd`, `result`) are process-local resources or
are owned by the runner and are not part of this embedding; the current
state name lives in the configuration alongside the record. -/
structure Process where
  Cmd : String
  Args : List String
  Dir : String
  Env : List String
  StartTimeout : Int
  BackoffTimeout : Int
  StopTimeout : Int
  KillTimeout : Int
  MaxStartAttempts : Int
  MaxRestarts : Int
  RestartTimeout : Int
  RestartPolicy : String
  StartAttempt : Int
  RestartCount : Int
  LastError : Option Err

/-- Default timeouts (the `const` block of `process.go`), in milliseconds. -/
def restartTimeout : Int := 100

def startTimeout : Int := 1000

def backoffTimeout : Int := 5000

def stopTimeout : Int := 20000

def killTimeout : Int := 5000

/-- The synchronous part of `Run`: every timeout field that is exactly zero
is replaced by its default.  (The channel construction, `context.WithCancel`
and the goroutine launch have no effect on these fields.) -/
def Process.Run (p : Process) : Process :=
  let p := if p.StartTimeout = 0 then { p with StartTimeout := startTimeout } else p
  let p := if p.StopTimeout = 0 then { p with StopTimeout := stopTimeout } else p
  let p := if p.BackoffTimeout = 0 then { p with BackoffTimeout := backoffTimeout } else p
  let p := if p.RestartTimeout = 0 then { p with RestartTimeout := restartTimeout } else p
  let p := if p.KillTimeout = 0 then { p with KillTimeout := killTimeout } else p
  p

/-- Arms of the `select` in `starting`: `<-c.Done()`, `<-p.result`, and
`<-time.After(StartTimeout)`. -/
inductive StartObs where
  | cancel
  | exited (e : Option Err)
  | timeout

/-- Arms of the `select` in `running`: `<-c.Done()` and `<-p.result`. -/
inductive RunObs where
  | cancel
  | exited (e : Option Err)

/-- Arms of the `select` in `stopping` and in `killing`: `<-p.result` and
the respective timeout.  Neither contains a `<-c.Done()` arm. -/
inductive StopObs where
  | exited (e : Option Err)
  | timeout

/-- Arms of the `select` in `backoff` and in `restarting`: `<-c.Done()` and
the respective delay. -/
inductive WaitObs where
  | cancel
  | timeout
deriving DecidableEq, Repr

/-- The Go `switch p.RestartPolicy` at the exit points of `starting` and
`running`, written out: case `"on-failure"` breaks when the exit error is
nil and otherwise falls through to case `"always"`, which restarts; any
other policy reaches the trailing `return p.stopped`.  Returns the updated
record and `true` iff the restart branch is taken. -/
def policySwitch (p : Process) (e : Option Err) : Bool :=
  if p.RestartPolicy = "on-failure" then
    if e.isNone then false else true
  else if p.RestartPolicy = "always" then true
  else false

/-- The `starting` state method.  `spawnRes` is the result of `cmd.Start()`
(`none` for success); on success the code then waits on its `select`,
observing `obs`.  Note `p.LastError = p.cmd.Start()` stores the spawn
result — also the `nil` on success — before anything else. -/
def Process.starting (p : Process) (spawnRes : Option Err) (obs : StartObs) :
    Process × Option StateId :=
  match spawnRes with
  | some e => ({ p with LastError := some e }, some StateId.failed)
  | none =>
    let p := { p with LastError := none }
    match obs with
    | StartObs.cancel => (p, some StateId.stopping)
    | StartObs.exited e =>
      let p := { p with LastError := e }
      if policySwitch p e then (p, some StateId.backoff)
      else (p, some StateId.stopped)
    | StartObs.timeout =>
      ({ p with LastError := none, StartAttempt := 0 }, some StateId.running)

/-- The `running` state method: block on cancellation or child exit. -/
def Process.running (p : Process) (obs : RunObs) : Process × Option StateId :=
  match obs with
  | RunObs.cancel => (p, some StateId.stopping)
  | RunObs.exited e =>
    let p := { p with LastError := e }
    if policySwitch p e then (p, some StateId.restarting)
    else (p, some StateId.stopped)

/-- The `stopping` state method.  `sigRes` is the result of
`p.cmd.Process.Signal(os.Interrupt)`, stored into `LastError` (also when
nil); on failure the state is `failed`, otherwise the `select` races child
exit against the stop timeout. -/
def Process.stopping (p : Process) (sigRes : Option Err) (obs : StopObs) :
    Process × Option StateId :=
  match sigRes with
  | some e => ({ p with LastError := some e }, some StateId.failed)
  | none =>
    let p := { p with LastError := none }
    match obs with
    | StopObs.exited e => ({ p with LastError := e }, some StateId.stopped)
    | StopObs.timeout => (p, some StateId.killing)

/-- The `killing` state method.  `sigRes` is the result of
`p.cmd.Process.Signal(os.Kill)`; the `select` races child exit against the
kill timeout, whose expiry synthesizes the "failed to kill process" error. -/
def Process.killing (p : Process) (sigRes : Option Err) (obs : StopObs) :
    Process × Option StateId :=
  match sigRes with
  | some e => ({ p with LastError := some e }, some StateId.failed)
  | none =>
    let p := { p with LastError := none }
    match obs with
    | StopObs.exited e => ({ p with LastError := e }, some StateId.stopped)
    | StopObs.timeout =>
      ({ p with LastError := some Err.killFailed }, some StateId.failed)

/-- The `backoff` state method: increment `StartAttempt`; if
`MaxStartAttempts != 0 && StartAttempt >= MaxStartAttempts` fail, wrapping
the previous `LastError`; otherwise race the backoff delay against
cancellation. -/
def Process.backoff (p : Process) (obs : WaitObs) : Process × Option StateId :=
  let p := { p with StartAttempt := p.StartAttempt + 1 }
  if p.MaxStartAttempts ≠ 0 ∧ p.StartAttempt ≥ p.MaxStartAttempts then
    ({ p with LastError := some (Err.maxStartAttemptsReached p.LastError) },
      some StateId.failed)
  else
    match obs with
    | WaitObs.cancel => (p, some StateId.stopping)
    | WaitObs.timeout => ({ p with LastError := none }, some StateId.starting)

/-- The `restarting` state method: increment `RestartCount`; if
`MaxRestarts != 0 && RestartCount >= MaxRestarts`, end in `failed` when
`LastError` is non-nil and in `stopped` when it is nil; otherwise race the
restart delay against cancellation. -/
def Process.restarting (p : Process) (obs : WaitObs) : Process × Option StateId :=
  let p := { p with RestartCount := p.RestartCount + 1 }
  if p.MaxRestarts ≠ 0 ∧ p.RestartCount ≥ p.MaxRestarts then
    if p.LastError.isSome then (p, some StateId.failed)
    else (p, some StateId.stopped)
  else
    match obs with
    | WaitObs.cancel => (p, some StateId.stopping)
    | WaitObs.timeout => ({ p with LastError := none }, some StateId.starting)

/-- The `failed` state method: terminal, returns no successor. -/
def Process.failed (p : Process) : Process × Option StateId :=
  (p, none)

/-- The `stopped` state method: terminal, returns no successor. -/
def Process.stopped (p : Process) : Process × Option StateId :=
  (p, none)

/-- A configuration of the running state machine: the state method about to
run next (as reported to the observer) paired with the record. -/
abbrev Cfg := StateId × Process

/-- One transition of the supervisor, as driven by `state.Run`.  The flag
`cancelled` records whether the merged cancellation signal (caller context
or the `Stop` handle, joined by `context.WithCancel`) has fired: a
`<-c.Done()` arm can only be selected when it has.  The terminal state
methods return no successor, so the `failedStep`/`stoppedStep` hypotheses
are never satisfiable and those configurations take no step. -/
inductive Step : Bool → Cfg → Cfg → Prop where
  | startingStep (b : Bool) (p : Process) (spawnRes : Option Err) (obs : StartObs)
      (p' : Process) (s' : StateId)
      (hb : obs = StartObs.cancel → b = true)
      (h : p.starting spawnRes obs = (p', some s')) :
      Step b (StateId.starting, p) (s', p')
  | runningStep (b : Bool) (p : Process) (obs : RunObs) (p' : Process) (s' : StateId)
      (hb : obs = RunObs.cancel → b = true)
      (h : p.running obs = (p', some s')) :
      Step b (StateId.running, p) (s', p')
  | stoppingStep (b : Bool) (p : Process) (sigRes : Option Err) (obs : StopObs)
      (p' : Process) (s' : StateId)
      (h : p.stopping sigRes obs = (p', some s')) :
      Step b (StateId.stopping, p) (s', p')
  | killingStep (b : Bool) (p : Process) (sigRes : Option Err) (obs : StopObs)
      (p' : Process) (s' : StateId)
      (h : p.killing sigRes obs = (p', some s')) :
      Step b (StateId.killing, p) (s', p')
  | backoffStep (b : Bool) (p : Process) (obs : WaitObs) (p' : Process) (s' : StateId)
      (hb : obs = WaitObs.cancel → b = true)
      (h : p.backoff obs = (p', some s')) :
      Step b (StateId.backoff, p) (s', p')
  | restartingStep (b : Bool) (p : Process) (obs : WaitObs) (p' : Process) (s' : StateId)
      (hb : obs = WaitObs.cancel → b = true)
      (h : p.restarting obs = (p', some s')) :
      Step b (StateId.restarting, p) (s', p')
  | failedStep (b : Bool) (p p' : Process) (s' : StateId)
      (h : p.failed = (p', some s')) :
      Step b (StateId.failed, p) (s', p')
  | stoppedStep (b : Bool) (p p' : Process) (s' : StateId)
      (h : p.stopped = (p', some s')) :
      Step b (StateId.stopped, p) (s', p')

/-- A transition under either cancellation status. -/
def AnyStep (c c' : Cfg) : Prop := ∃ b, Step b c c'

/-- A fresh supervised run: the caller populates the launch spec and policy
and leaves the run-time counters at their zero values; `state.Run` is
entered at `starting`. -/
def FreshRun (p : Process) : Prop := p.StartAttempt = 0 ∧ p.RestartCount = 0

/-- Configurations reachable during a run started on descriptor `p₀`. -/
def Reachable (p₀ : Process) (c : Cfg) : Prop :=
  Relation.ReflTransGen AnyStep (StateId.starting, p₀) c

/-- Shared base descriptor for concrete instantiations (the configuration
of `TestRun` in the test file). -/
def pBase : Process :=
  { Cmd := "/bin/sleep", Args := ["1"], Dir := "", Env := [],
    StartTimeout := 1000, BackoffTimeout := 5000, StopTimeout := 20000,
    KillTimeout := 5000, MaxStartAttempts := 0, MaxRestarts := 0,
    RestartTimeout := 100, RestartPolicy := "", StartAttempt := 0,
    RestartCount := 0, LastError := none }

/-- The terminal state identifiers (`failed` and `stopped` return no
successor). -/
def TerminalId (s : StateId) : Prop :=
  s = StateId.failed ∨ s = StateId.stopped

/-- Counter invariant maintained by every transition: under a positive
budget the counter never exceeds it, and strictly precedes it except in a
terminal state. -/
def CounterInv (c : Cfg) : Prop :=
  (0 < c.2.MaxStartAttempts →
    c.2.StartAttempt ≤ c.2.MaxStartAttempts ∧
    (TerminalId c.1 ∨ c.2.StartAttempt < c.2.MaxStartAttempts)) ∧
  (0 < c.2.MaxRestarts →
    c.2.RestartCount ≤ c.2.MaxRestarts ∧
    (TerminalId c.1 ∨ c.2.RestartCount < c.2.MaxRestarts))

/-! ## Outcome inversion lemmas

One lemma per state method, enumerating every way it can produce a
successor.  All later proofs case on these. -/

theorem starting_out {p : Process} {spawnRes : Option Err} {obs : StartObs}
    {p' : Process} {s' : StateId}
    (h : p.starting spawnRes obs = (p', some s')) :
    (∃ e, spawnRes = some e ∧ p' = { p with LastError := some e } ∧
      s' = StateId.failed) ∨
    (spawnRes = none ∧ obs = StartObs.cancel ∧
      p' = { p with LastError := none } ∧ s' = StateId.stopping) ∨
    (∃ e, spawnRes = none ∧ obs = StartObs.exited e ∧
      p' = { p with LastError := e } ∧
      ((policySwitch p e = true ∧ s' = StateId.backoff) ∨
       (policySwitch p e = false ∧ s' = StateId.stopped))) ∨
    (spawnRes = none ∧ obs = StartObs.timeout ∧
      p' = { p with LastError := none, StartAttempt := 0 } ∧
      s' = StateId.running) := by
  cases spawnRes with
  | some e =>
    simp only [Process.starting, Prod.mk.injEq, Option.some.injEq] at h
    exact Or.inl ⟨e, rfl, h.1.symm, h.2.symm⟩
  | none =>
    cases obs with
    | cancel =>
      simp only [Process.starting, Prod.mk.injEq, Option.some.injEq] at h
      exact Or.inr (Or.inl ⟨rfl, rfl, h.1.symm, h.2.symm⟩)
    | exited e =>
      rw [show Process.starting p none (StartObs.exited e)
          = (if policySwitch p e = true
              then (({ p with LastError := e } : Process), some StateId.backoff)
              else ({ p with LastError := e }, some StateId.stopped)) from rfl] at h
      by_cases hp : policySwitch p e = true
      · rw [if_pos hp] at h
        simp only [Prod.mk.injEq, Option.some.injEq] at h
        exact Or.inr (Or.inr (Or.inl ⟨e, rfl, rfl, h.1.symm,
          Or.inl ⟨hp, h.2.symm⟩⟩))
      · rw [if_neg hp] at h
        simp only [Prod.mk.injEq, Option.some.injEq] at h
        exact Or.inr (Or.inr (Or.inl ⟨e, rfl, rfl, h.1.symm,
          Or.inr ⟨Bool.not_eq_true _ ▸ hp, h.2.symm⟩⟩))
    | timeout =>
      simp only [Process.starting, Prod.mk.injEq, Option.some.injEq] at h
      exact Or.inr (Or.inr (Or.inr ⟨rfl, rfl, h.1.symm, h.2.symm⟩))

theorem running_out {p : Process} {obs : RunObs} {p' : Process} {s' : StateId}
    (h : p.running obs = (p', some s')) :
    (obs = RunObs.cancel ∧ p' = p ∧ s' = StateId.stopping) ∨
    (∃ e, obs = RunObs.exited e ∧ p' = { p with LastError := e } ∧
      ((policySwitch p e = true ∧ s' = StateId.restarting) ∨
       (policySwitch p e = false ∧ s' = StateId.stopped))) := by
  cases obs with
  | cancel =>
    simp only [Process.running, Prod.mk.injEq, Option.some.injEq] at h
    exact Or.inl ⟨rfl, h.1.symm, h.2.symm⟩
  | exited e =>
    rw [show Process.running p (RunObs.exited e)
        = (if policySwitch p e = true
            then (({ p with LastError := e } : Process), some StateId.restarting)
            else ({ p with LastError := e }, some StateId.stopped)) from rfl] at h
    by_cases hp : policySwitch p e = true
    · rw [if_pos hp] at h
      simp only [Prod.mk.injEq, Option.some.injEq] at h
      exact Or.inr ⟨e, rfl, h.1.symm, Or.inl ⟨hp, h.2.symm⟩⟩
    · rw [if_neg hp] at h
      simp only [Prod.mk.injEq, Option.some.injEq] at h
      exact Or.inr ⟨e, rfl, h.1.symm, Or.inr ⟨Bool.not_eq_true _ ▸ hp, h.2.symm⟩⟩

theorem stopping_out {p : Process} {sigRes : Option Err} {obs : StopObs}
    {p' : Process} {s' : StateId}
    (h : p.stopping sigRes obs = (p', some s')) :
    (∃ e, sigRes = some e ∧ p' = { p with LastError := some e } ∧
      s' = StateId.failed) ∨
    (∃ e, sigRes = none ∧ obs = StopObs.exited e ∧
      p' = { p with LastError := e } ∧ s' = StateId.stopped) ∨
    (sigRes = none ∧ obs = StopObs.timeout ∧
      p' = { p with LastError := none } ∧ s' = StateId.killing) := by
  cases sigRes with
  | some e =>
    simp only [Process.stopping, Prod.mk.injEq, Option.some.injEq] at h
    exact Or.inl ⟨e, rfl, h.1.symm, h.2.symm⟩
  | none =>
    cases obs with
    | exited e =>
      simp only [Process.stopping, Prod.mk.injEq, Option.some.injEq] at h
      exact Or.inr (Or.inl ⟨e, rfl, rfl, h.1.symm, h.2.symm⟩)
    | timeout =>
      simp only [Process.stopping, Prod.mk.injEq, Option.some.injEq] at h
      exact Or.inr (Or.inr ⟨rfl, rfl, h.1.symm, h.2.symm⟩)

theorem killing_out {p : Process} {sigRes : Option Err} {obs : StopObs}
    {p' : Process} {s' : StateId}
    (h : p.killing sigRes obs = (p', some s')) :
    (∃ e, sigRes = some e ∧ p' = { p with LastError := some e } ∧
      s' = StateId.failed) ∨
    (∃ e, sigRes = none ∧ obs = StopObs.exited e ∧
      p' = { p with LastError := e } ∧ s' = StateId.stopped) ∨
    (sigRes = none ∧ obs = StopObs.timeout ∧
      p' = { p with LastError := some Err.killFailed } ∧
      s' = StateId.failed) := by
  cases sigRes with
  | some e =>
    simp only [Process.killing, Prod.mk.injEq, Option.some.injEq] at h
    exact Or.inl ⟨e, rfl, h.1.symm, h.2.symm⟩
  | none =>
    cases obs with
    | exited e =>
      simp only [Process.killing, Prod.mk.injEq, Option.some.injEq] at h
      exact Or.inr (Or.inl ⟨e, rfl, rfl, h.1.symm, h.2.symm⟩)
    | timeout =>
      simp only [Process.killing, Prod.mk.injEq, Option.some.injEq] at h
      exact Or.inr (Or.inr ⟨rfl, rfl, h.1.symm, h.2.symm⟩)

theorem backoff_out {p : Process} {obs : WaitObs} {p' : Process} {s' : StateId}
    (h : p.backoff obs = (p', some s')) :
    ((p.MaxStartAttempts ≠ 0 ∧ p.StartAttempt + 1 ≥ p.MaxStartAttempts) ∧
      p' = { p with
              StartAttempt := p.StartAttempt + 1,
              LastError := some (Err.maxStartAttemptsReached p.LastError) } ∧
      s' = StateId.failed) ∨
    (¬(p.MaxStartAttempts ≠ 0 ∧ p.StartAttempt + 1 ≥ p.MaxStartAttempts) ∧
      obs = WaitObs.cancel ∧
      p' = { p with StartAttempt := p.StartAttempt + 1 } ∧
      s' = StateId.stopping) ∨
    (¬(p.MaxStartAttempts ≠ 0 ∧ p.StartAttempt + 1 ≥ p.MaxStartAttempts) ∧
      obs = WaitObs.timeout ∧
      p' = { p with StartAttempt := p.StartAttempt + 1, LastError := none } ∧
      s' = StateId.starting) := by
  by_cases hc : p.MaxStartAttempts ≠ 0 ∧ p.StartAttempt + 1 ≥ p.MaxStartAttempts
  · rw [show p.backoff obs
        = ({ p with
              StartAttempt := p.StartAttempt + 1,
              LastError := some (Err.maxStartAttemptsReached p.LastError) },
          some StateId.failed) from by
      simp only [Process.backoff]; rw [if_pos hc]] at h
    simp only [Prod.mk.injEq, Option.some.injEq] at h
    exact Or.inl ⟨hc, h.1.symm, h.2.symm⟩
  · cases obs with
    | cancel =>
      rw [show p.backoff WaitObs.cancel
          = ({ p with StartAttempt := p.StartAttempt + 1 },
            some StateId.stopping) from by
        simp only [Process.backoff]; rw [if_neg hc]] at h
      simp only [Prod.mk.injEq, Option.some.injEq] at h
      exact Or.inr (Or.inl ⟨hc, rfl, h.1.symm, h.2.symm⟩)
    | timeout =>
      rw [show p.backoff WaitObs.timeout
          = ({ p with StartAttempt := p.StartAttempt + 1, LastError := none },
            some StateId.starting) from by
        simp only [Process.backoff]; rw [if_neg hc]] at h
      simp only [Prod.mk.injEq, Option.some.injEq] at h
      exact Or.inr (Or.inr ⟨hc, rfl, h.1.symm, h.2.symm⟩)

theorem restarting_out {p : Process} {obs : WaitObs} {p' : Process} {s' : StateId}
    (h : p.restarting obs = (p', some s')) :
    ((p.MaxRestarts ≠ 0 ∧ p.RestartCount + 1 ≥ p.MaxRestarts) ∧
      p' = { p with RestartCount := p.RestartCount + 1 } ∧
      ((p.LastError.isSome = true ∧ s' = StateId.failed) ∨
       (p.LastError.isSome = false ∧ s' = StateId.stopped))) ∨
    (¬(p.MaxRestarts ≠ 0 ∧ p.RestartCount + 1 ≥ p.MaxRestarts) ∧
      obs = WaitObs.cancel ∧
      p' = { p with RestartCount := p.RestartCount + 1 } ∧
      s' = StateId.stopping) ∨
    (¬(p.MaxRestarts ≠ 0 ∧ p.RestartCount + 1 ≥ p.MaxRestarts) ∧
      obs = WaitObs.timeout ∧
      p' = { p with RestartCount := p.RestartCount + 1, LastError := none } ∧
      s' = StateId.starting) := by
  by_cases hc : p.MaxRestarts ≠ 0 ∧ p.RestartCount + 1 ≥ p.MaxRestarts
  · by_cases he : p.LastError.isSome = true
    · rw [show p.restarting obs
          = ({ p with RestartCount := p.RestartCount + 1 },
            some StateId.failed) from by
        simp only [Process.restarting]; rw [if_pos hc, if_pos he]] at h
      simp only [Prod.mk.injEq, Option.some.injEq] at h
      exact Or.inl ⟨hc, h.1.symm, Or.inl ⟨he, h.2.symm⟩⟩
    · rw [show p.restarting obs
          = ({ p with RestartCount := p.RestartCount + 1 },
            some StateId.stopped) from by
        simp only [Process.restarting]; rw [if_pos hc, if_neg he]] at h
      simp only [Prod.mk.injEq, Option.some.injEq] at h
      exact Or.inl ⟨hc, h.1.symm, Or.inr ⟨Bool.not_eq_true _ ▸ he, h.2.symm⟩⟩
  · cases obs with
    | cancel =>
      rw [show p.restarting WaitObs.cancel
          = ({ p with RestartCount := p.RestartCount + 1 },
            some StateId.stopping) from by
        simp only [Process.restarting]; rw [if_neg hc]] at h
      simp only [Prod.mk.injEq, Option.some.injEq] at h
      exact Or.inr (Or.inl ⟨hc, rfl, h.1.symm, h.2.symm⟩)
    | timeout =>
      rw [show p.restarting WaitObs.timeout
          = ({ p with RestartCount := p.RestartCount + 1, LastError := none },
            some StateId.starting) from by
        simp only [Process.restarting]; rw [if_neg hc]] at h
      simp only [Prod.mk.injEq, Option.some.injEq] at h
      exact Or.inr (Or.inr ⟨hc, rfl, h.1.symm, h.2.symm⟩)

theorem failed_no_succ {p p' : Process} {s' : StateId} :
    p.failed ≠ (p', some s') := by
  simp [Process.failed]

theorem stopped_no_succ {p p' : Process} {s' : StateId} :
    p.stopped ≠ (p', some s') := by
  simp [Process.stopped]

/-! ## Claim theorems -/

/-- C1: restart-policy evaluation is identical at the exit points of the
`starting` and `running` states: policy "always" restarts unconditionally
(to `backoff` from `starting`, to `restarting` from `running`); policy
"on-failure" restarts only when the observed exit error is non-nil (a nil
exit transitions to `stopped`); every other policy string transitions
directly to `stopped`. -/
theorem restart_policy_eval_identical (p : Process) (e : Option Err) :
    (p.RestartPolicy = "always" →
      (p.starting none (StartObs.exited e)).2 = some StateId.backoff ∧
      (p.running (RunObs.exited e)).2 = some StateId.restarting) ∧
    (p.RestartPolicy = "on-failure" → e.isSome = true →
      (p.starting none (StartObs.exited e)).2 = some StateId.backoff ∧
      (p.running (RunObs.exited e)).2 = some StateId.restarting) ∧
    (p.RestartPolicy = "on-failure" → e = none →
      (p.starting none (StartObs.exited e)).2 = some StateId.stopped ∧
      (p.running (RunObs.exited e)).2 = some StateId.stopped) ∧
    (p.RestartPolicy ≠ "on-failure" → p.RestartPolicy ≠ "always" →
      (p.starting none (StartObs.exited e)).2 = some StateId.stopped ∧
      (p.running (RunObs.exited e)).2 = some StateId.stopped) := by
  have hs : Process.starting p none (StartObs.exited e)
      = (if policySwitch p e = true
          then (({ p with LastError := e } : Process), some StateId.backoff)
          else ({ p with LastError := e }, some StateId.stopped)) := rfl
  have hr : Process.running p (RunObs.exited e)
      = (if policySwitch p e = true
          then (({ p with LastError := e } : Process), some StateId.restarting)
          else ({ p with LastError := e }, some StateId.stopped)) := rfl
  refine ⟨?_, ?_, ?_, ?_⟩
  · intro h
    have hp : policySwitch p e = true := by
      unfold policySwitch
      rw [h, if_neg (by decide), if_pos rfl]
    rw [hs, hr, if_pos hp, if_pos hp]
    exact ⟨rfl, rfl⟩
  · intro h he
    have hp : policySwitch p e = true := by
      unfold policySwitch
      rw [h, if_pos rfl]
      cases e with
      | none => simp at he
      | some a => rfl
    rw [hs, hr, if_pos hp, if_pos hp]
    exact ⟨rfl, rfl⟩
  · intro h he
    have hp : policySwitch p e = false := by
      unfold policySwitch
      rw [h, if_pos rfl, he]
      rfl
    rw [hs, hr, if_neg (by simp [hp]), if_neg (by simp [hp])]
    exact ⟨rfl, rfl⟩
  · intro h1 h2
    have hp : policySwitch p e = false := by
      unfold policySwitch
      rw [if_neg h1, if_neg h2]
    rw [hs, hr, if_neg (by simp [hp]), if_neg (by simp [hp])]
    exact ⟨rfl, rfl⟩

theorem restart_policy_eval_identical_witness :
    (Process.starting { pBase with RestartPolicy := "always" } none
      (StartObs.exited none)).2 = some StateId.backoff ∧
    (Process.running { pBase with RestartPolicy := "always" }
      (RunObs.exited none)).2 = some StateId.restarting :=
  (restart_policy_eval_identical { pBase with RestartPolicy := "always" } none).1 rfl

/-- C6: in `killing`, if the kill timeout elapses without the exit being
observed, the run transitions to `failed` (never `stopped`) with
`LastError` the synthesized "failed to kill process" error. -/
theorem kill_timeout_fails (p : Process) :
    (p.killing none StopObs.timeout).2 = some StateId.failed ∧
    (p.killing none StopObs.timeout).2 ≠ some StateId.stopped ∧
    (p.killing none StopObs.timeout).1.LastError = some Err.killFailed := by
  refine ⟨rfl, ?_, rfl⟩
  intro h
  rw [show (Process.killing p none StopObs.timeout).2 = some StateId.failed
    from rfl] at h
  exact Option.noConfusion h fun hh => StateId.noConfusion hh

theorem kill_timeout_fails_witness :
    (Process.killing pBase none StopObs.timeout).2 = some StateId.failed ∧
    (Process.killing pBase none StopObs.timeout).2 ≠ some StateId.stopped ∧
    (Process.killing pBase none StopObs.timeout).1.LastError
      = some Err.killFailed :=
  kill_timeout_fails pBase

/-- C8: a spawn failure in `starting` transitions immediately to `failed`
with `LastError` the spawn error; the restart-policy switch is never
reached, so the successor is `failed` for every policy value. -/
theorem spawn_failure_immediate_failed (p : Process) (e : Err) (obs : StartObs) :
    p.starting (some e) obs
      = ({ p with LastError := some e }, some StateId.failed) ∧
    (∀ pol : String,
      (Process.starting { p with RestartPolicy := pol } (some e) obs).2
        = some StateId.failed) :=
  ⟨rfl, fun _ => rfl⟩

theorem spawn_failure_immediate_failed_witness :
    Process.starting { pBase with RestartPolicy := "always" }
        (some (Err.osError "no such file")) StartObs.timeout
      = ({ pBase with
            RestartPolicy := "always",
            LastError := some (Err.osError "no such file") },
         some StateId.failed) :=
  (spawn_failure_immediate_failed { pBase with RestartPolicy := "always" }
    (Err.osError "no such file") StartObs.timeout).1

/-- C10: the synchronous part of `Run` replaces exactly the zero-valued
timeout fields by their defaults and leaves every other descriptor field —
including negative timeout values — unchanged. -/
theorem run_sync_frame (p : Process) :
    (p.Run).Cmd = p.Cmd ∧ (p.Run).Args = p.Args ∧ (p.Run).Dir = p.Dir ∧
    (p.Run).Env = p.Env ∧ (p.Run).RestartPolicy = p.RestartPolicy ∧
    (p.Run).MaxStartAttempts = p.MaxStartAttempts ∧
    (p.Run).MaxRestarts = p.MaxRestarts ∧
    (p.Run).StartAttempt = p.StartAttempt ∧
    (p.Run).RestartCount = p.RestartCount ∧
    (p.Run).LastError = p.LastError ∧
    (p.Run).StartTimeout
      = (if p.StartTimeout = 0 then startTimeout else p.StartTimeout) ∧
    (p.Run).StopTimeout
      = (if p.StopTimeout = 0 then stopTimeout else p.StopTimeout) ∧
    (p.Run).BackoffTimeout
      = (if p.BackoffTimeout = 0 then backoffTimeout else p.BackoffTimeout) ∧
    (p.Run).RestartTimeout
      = (if p.RestartTimeout = 0 then restartTimeout else p.RestartTimeout) ∧
    (p.Run).KillTimeout
      = (if p.KillTimeout = 0 then killTimeout else p.KillTimeout) := by
  unfold Process.Run
  by_cases h1 : p.StartTimeout = 0 <;> by_cases h2 : p.StopTimeout = 0 <;>
    by_cases h3 : p.BackoffTimeout = 0 <;> by_cases h4 : p.RestartTimeout = 0 <;>
    by_cases h5 : p.KillTimeout = 0 <;>
    simp [h1, h2, h3, h4, h5]

/-- C3 counterexample: with `MaxStartAttempts = -1` — not positive, so the
claim's "otherwise" branch applies and predicts a transition to `starting`
on the delay elapsing — the code's `MaxStartAttempts != 0` test fires and
`backoff` transitions to `failed` instead. -/
theorem backoff_nonpositive_max_cex :
    ¬ (0 < ({ pBase with MaxStartAttempts := -1 } : Process).MaxStartAttempts) ∧
    (Process.backoff { pBase with MaxStartAttempts := -1 } WaitObs.timeout).2
      = some StateId.failed ∧
    (Process.backoff { pBase with MaxStartAttempts := -1 } WaitObs.timeout).2
      ≠ some StateId.starting := by
  refine ⟨by decide, rfl, ?_⟩
  intro h
  rw [show (Process.backoff { pBase with MaxStartAttempts := -1 }
      WaitObs.timeout).2 = some StateId.failed from rfl] at h
  exact Option.noConfusion h fun hh => StateId.noConfusion hh

/-- C3 (amended): `backoff` first increments `StartAttempt`; if
`MaxStartAttempts` is NONZERO and the incremented counter is ≥
`MaxStartAttempts`, it transitions to `failed` with `LastError` replaced by
an error wrapping the previous `LastError`; otherwise on cancellation it
transitions to `stopping` (keeping `LastError`) and on the backoff delay
elapsing it sets `LastError` to nil and transitions to `starting`. -/
theorem backoff_behavior (p : Process) :
    (∀ obs : WaitObs, (p.backoff obs).1.StartAttempt = p.StartAttempt + 1) ∧
    (if p.MaxStartAttempts ≠ 0 ∧ p.StartAttempt + 1 ≥ p.MaxStartAttempts then
      ∀ obs : WaitObs,
        (p.backoff obs).2 = some StateId.failed ∧
        (p.backoff obs).1.LastError
          = some (Err.maxStartAttemptsReached p.LastError)
    else
      ((p.backoff WaitObs.cancel).2 = some StateId.stopping ∧
        (p.backoff WaitObs.cancel).1.LastError = p.LastError) ∧
      ((p.backoff WaitObs.timeout).2 = some StateId.starting ∧
        (p.backoff WaitObs.timeout).1.LastError = none)) := by
  by_cases hc : p.MaxStartAttempts ≠ 0 ∧ p.StartAttempt + 1 ≥ p.MaxStartAttempts
  · have hx : ∀ obs : WaitObs, p.backoff obs
        = ({ p with
              StartAttempt := p.StartAttempt + 1,
              LastError := some (Err.maxStartAttemptsReached p.LastError) },
          some StateId.failed) := by
      intro obs
      simp only [Process.backoff]
      rw [if_pos hc]
    rw [if_pos hc]
    exact ⟨fun obs => by rw [hx obs], fun obs => by rw [hx obs]; exact ⟨rfl, rfl⟩⟩
  · have hx1 : p.backoff WaitObs.cancel
        = ({ p with StartAttempt := p.StartAttempt + 1 }, some StateId.stopping) := by
      simp only [Process.backoff]
      rw [if_neg hc]
    have hx2 : p.backoff WaitObs.timeout
        = ({ p with StartAttempt := p.StartAttempt + 1, LastError := none },
          some StateId.starting) := by
      simp only [Process.backoff]
      rw [if_neg hc]
    rw [if_neg hc]
    refine ⟨fun obs => ?_, ⟨by rw [hx1], by rw [hx1]⟩, ⟨by rw [hx2], by rw [hx2]⟩⟩
    cases obs with
    | cancel => rw [hx1]
    | timeout => rw [hx2]

theorem backoff_behavior_witness :
    (Process.backoff { pBase with MaxStartAttempts := 1 } WaitObs.timeout).1.StartAttempt
      = ({ pBase with MaxStartAttempts := 1 } : Process).StartAttempt + 1 ∧
    (Process.backoff { pBase with MaxStartAttempts := 1 } WaitObs.timeout).2
      = some StateId.failed := by
  have h := backoff_behavior { pBase with MaxStartAttempts := 1 }
  refine ⟨h.1 WaitObs.timeout, ?_⟩
  have h2 := h.2
  rw [if_pos (by decide)] at h2
  exact (h2 WaitObs.timeout).1

/-- C4 counterexample: with `MaxRestarts = -1` — not positive, so the
claim's "otherwise" branch applies and predicts a transition to `starting`
on the delay elapsing — the code's `MaxRestarts != 0` test fires and
`restarting` (with nil `LastError`) transitions to `stopped` instead. -/
theorem restarting_nonpositive_max_cex :
    ¬ (0 < ({ pBase with MaxRestarts := -1 } : Process).MaxRestarts) ∧
    (Process.restarting { pBase with MaxRestarts := -1 } WaitObs.timeout).2
      = some StateId.stopped ∧
    (Process.restarting { pBase with MaxRestarts := -1 } WaitObs.timeout).2
      ≠ some StateId.starting := by
  refine ⟨by decide, rfl, ?_⟩
  intro h
  rw [show (Process.restarting { pBase with MaxRestarts := -1 }
      WaitObs.timeout).2 = some StateId.stopped from rfl] at h
  exact Option.noConfusion h fun hh => StateId.noConfusion hh

/-- C4 (amended): `restarting` first increments `RestartCount`; if
`MaxRestarts` is NONZERO and the incremented counter is ≥ `MaxRestarts`, it
transitions to `failed` when `LastError` is non-nil and to `stopped` when
`LastError` is nil; otherwise on cancellation it transitions to `stopping`
and on the restart delay elapsing it sets `LastError` to nil and
transitions to `starting`. -/
theorem restarting_behavior (p : Process) :
    (∀ obs : WaitObs, (p.restarting obs).1.RestartCount = p.RestartCount + 1) ∧
    (if p.MaxRestarts ≠ 0 ∧ p.RestartCount + 1 ≥ p.MaxRestarts then
      ∀ obs : WaitObs,
        (p.restarting obs).2
          = (if p.LastError.isSome = true then some StateId.failed
              else some StateId.stopped)
    else
      ((p.restarting WaitObs.cancel).2 = some StateId.stopping) ∧
      ((p.restarting WaitObs.timeout).2 = some StateId.starting ∧
        (p.restarting WaitObs.timeout).1.LastError = none)) := by
  by_cases hc : p.MaxRestarts ≠ 0 ∧ p.RestartCount + 1 ≥ p.MaxRestarts
  · by_cases he : p.LastError.isSome = true
    · have hx : ∀ obs : WaitObs, p.restarting obs
          = ({ p with RestartCount := p.RestartCount + 1 }, some StateId.failed) := by
        intro obs
        simp only [Process.restarting]
        rw [if_pos hc, if_pos he]
      rw [if_pos hc]
      exact ⟨fun obs => by rw [hx obs], fun obs => by rw [hx obs, if_pos he]⟩
    · have hx : ∀ obs : WaitObs, p.restarting obs
          = ({ p with RestartCount := p.RestartCount + 1 }, some StateId.stopped) := by
        intro obs
        simp only [Process.restarting]
        rw [if_pos hc, if_neg he]
      rw [if_pos hc]
      exact ⟨fun obs => by rw [hx obs], fun obs => by rw [hx obs, if_neg he]⟩
  · have hx1 : p.restarting WaitObs.cancel
        = ({ p with RestartCount := p.RestartCount + 1 }, some StateId.stopping) := by
      simp only [Process.restarting]
      rw [if_neg hc]
    have hx2 : p.restarting WaitObs.timeout
        = ({ p with RestartCount := p.RestartCount + 1, LastError := none },
          some StateId.starting) := by
      simp only [Process.restarting]
      rw [if_neg hc]
    rw [if_neg hc]
    refine ⟨fun obs => ?_, by rw [hx1], ⟨by rw [hx2], by rw [hx2]⟩⟩
    cases obs with
    | cancel => rw [hx1]
    | timeout => rw [hx2]

theorem restarting_behavior_witness :
    (Process.restarting { pBase with MaxRestarts := 1 } WaitObs.cancel).1.RestartCount
      = ({ pBase with MaxRestarts := 1 } : Process).RestartCount + 1 ∧
    (Process.restarting { pBase with MaxRestarts := 1 } WaitObs.cancel).2
      = some StateId.stopped := by
  have h := restarting_behavior { pBase with MaxRestarts := 1 }
  refine ⟨h.1 WaitObs.cancel, ?_⟩
  have h2 := h.2
  rw [if_pos (by decide)] at h2
  have h3 := h2 WaitObs.cancel
  rw [if_neg (by decide)] at h3
  exact h3

theorem run_sync_frame_witness :
    (Process.Run { pBase with StartTimeout := 0, KillTimeout := -5 }).StartTimeout
      = startTimeout ∧
    (Process.Run { pBase with StartTimeout := 0, KillTimeout := -5 }).KillTimeout
      = -5 := by
  have h := run_sync_frame { pBase with StartTimeout := 0, KillTimeout := -5 }
  refine ⟨?_, ?_⟩
  · rw [h.2.2.2.2.2.2.2.2.2.2.1]
    decide
  · rw [h.2.2.2.2.2.2.2.2.2.2.2.2.2.2]
    decide

/-- C2 counterexample: the `starting` state function DOES reset
`StartAttempt` to 0 mid-run, on the start-timeout path to `running`
(`p.StartAttempt = 0` in the `time.After` arm): from a descriptor with
`StartAttempt = 3` — reachable after three backoffs under policy "always" —
surviving the start window leaves `StartAttempt = 0 < 3`. -/
theorem counter_reset_cex :
    ({ pBase with StartAttempt := 3, RestartPolicy := "always" } : Process).StartAttempt
      = 3 ∧
    (Process.starting { pBase with StartAttempt := 3, RestartPolicy := "always" }
      none StartObs.timeout).1.StartAttempt = 0 ∧
    (Process.starting { pBase with StartAttempt := 3, RestartPolicy := "always" }
      none StartObs.timeout).2 = some StateId.running ∧
    ¬ ((3 : Int) ≤ 0) := by
  exact ⟨rfl, rfl, rfl, by decide⟩

/-- C2 (amended): during a run, `RestartCount` never decreases across any
transition, and `StartAttempt` never decreases either, with the single
exception of the start-timeout transition from `starting` to `running`,
which resets `StartAttempt` to 0. -/
theorem counters_monotone (b : Bool) (c c' : Cfg) (h : Step b c c') :
    c.2.RestartCount ≤ c'.2.RestartCount ∧
    (c.2.StartAttempt ≤ c'.2.StartAttempt ∨
      (c.1 = StateId.starting ∧ c'.1 = StateId.running ∧
        c'.2.StartAttempt = 0)) := by
  cases h with
  | startingStep p spawnRes obs p' s' hb hs =>
    rcases starting_out hs with ⟨e, _, hp', hs'⟩ | ⟨_, _, hp', hs'⟩ |
      ⟨e, _, _, hp', _⟩ | ⟨_, _, hp', hs'⟩
    · subst hp'
      exact ⟨le_refl _, Or.inl (le_refl _)⟩
    · subst hp'
      exact ⟨le_refl _, Or.inl (le_refl _)⟩
    · subst hp'
      exact ⟨le_refl _, Or.inl (le_refl _)⟩
    · subst hp'
      subst hs'
      exact ⟨le_refl _, Or.inr ⟨rfl, rfl, rfl⟩⟩
  | runningStep p obs p' s' hb hs =>
    rcases running_out hs with ⟨_, hp', _⟩ | ⟨e, _, hp', _⟩ <;> subst hp' <;>
      exact ⟨le_refl _, Or.inl (le_refl _)⟩
  | stoppingStep p sigRes obs p' s' hs =>
    rcases stopping_out hs with ⟨e, _, hp', _⟩ | ⟨e, _, _, hp', _⟩ |
      ⟨_, _, hp', _⟩ <;> subst hp' <;>
      exact ⟨le_refl _, Or.inl (le_refl _)⟩
  | killingStep p sigRes obs p' s' hs =>
    rcases killing_out hs with ⟨e, _, hp', _⟩ | ⟨e, _, _, hp', _⟩ |
      ⟨_, _, hp', _⟩ <;> subst hp' <;>
      exact ⟨le_refl _, Or.inl (le_refl _)⟩
  | backoffStep p obs p' s' hb hs =>
    rcases backoff_out hs with ⟨_, hp', _⟩ | ⟨_, _, hp', _⟩ | ⟨_, _, hp', _⟩ <;>
      subst hp' <;>
      exact ⟨le_refl _,
        Or.inl (by show p.StartAttempt ≤ p.StartAttempt + 1; omega)⟩
  | restartingStep p obs p' s' hb hs =>
    rcases restarting_out hs with ⟨_, hp', _⟩ | ⟨_, _, hp', _⟩ | ⟨_, _, hp', _⟩ <;>
      subst hp' <;>
      exact ⟨by show p.RestartCount ≤ p.RestartCount + 1; omega,
        Or.inl (le_refl _)⟩
  | failedStep p p' s' hs =>
    exact absurd hs failed_no_succ
  | stoppedStep p p' s' hs =>
    exact absurd hs stopped_no_succ

theorem counters_monotone_witness :
    Step false (StateId.running, pBase)
      (StateId.stopped, { pBase with LastError := none }) ∧
    pBase.RestartCount
      ≤ ({ pBase with LastError := none } : Process).RestartCount := by
  have hstep : Step false (StateId.running, pBase)
      (StateId.stopped, { pBase with LastError := none }) :=
    Step.runningStep false pBase (RunObs.exited none)
      { pBase with LastError := none } StateId.stopped
      (fun hx => RunObs.noConfusion hx) rfl
  exact ⟨hstep, (counters_monotone false _ _ hstep).1⟩

/-- C5: every transition whose target state is `failed` leaves a non-nil
`LastError` — on every path into `failed` (spawn failure, signal-send
failure in `stopping` or `killing`, kill-timeout expiry, start-attempt
budget exhaustion, restart budget exhaustion) — and `failed` takes no
further step, so the run terminates there with `LastError` non-nil. -/
theorem failed_has_error :
    (∀ (b : Bool) (c c' : Cfg), Step b c c' → c'.1 = StateId.failed →
      c'.2.LastError.isSome = true) ∧
    (∀ (b : Bool) (p : Process) (c' : Cfg), ¬ Step b (StateId.failed, p) c') := by
  constructor
  · intro b c c' h hf
    cases h with
    | startingStep p spawnRes obs p' s' hb hs =>
      rcases starting_out hs with ⟨e, _, hp', hs'⟩ | ⟨_, _, hp', hs'⟩ |
        ⟨e, _, _, hp', hpol⟩ | ⟨_, _, hp', hs'⟩
      · subst hp'
        rfl
      · subst hs'
        exact StateId.noConfusion hf
      · rcases hpol with ⟨_, hs'⟩ | ⟨_, hs'⟩ <;> subst hs' <;>
          exact StateId.noConfusion hf
      · subst hs'
        exact StateId.noConfusion hf
    | runningStep p obs p' s' hb hs =>
      rcases running_out hs with ⟨_, _, hs'⟩ | ⟨e, _, _, hpol⟩
      · subst hs'
        exact StateId.noConfusion hf
      · rcases hpol with ⟨_, hs'⟩ | ⟨_, hs'⟩ <;> subst hs' <;>
          exact StateId.noConfusion hf
    | stoppingStep p sigRes obs p' s' hs =>
      rcases stopping_out hs with ⟨e, _, hp', hs'⟩ | ⟨e, _, _, _, hs'⟩ |
        ⟨_, _, _, hs'⟩
      · subst hp'
        rfl
      · subst hs'
        exact StateId.noConfusion hf
      · subst hs'
        exact StateId.noConfusion hf
    | killingStep p sigRes obs p' s' hs =>
      rcases killing_out hs with ⟨e, _, hp', hs'⟩ | ⟨e, _, _, _, hs'⟩ |
        ⟨_, _, hp', hs'⟩
      · subst hp'
        rfl
      · subst hs'
        exact StateId.noConfusion hf
      · subst hp'
        rfl
    | backoffStep p obs p' s' hb hs =>
      rcases backoff_out hs with ⟨_, hp', hs'⟩ | ⟨_, _, _, hs'⟩ | ⟨_, _, _, hs'⟩
      · subst hp'
        rfl
      · subst hs'
        exact StateId.noConfusion hf
      · subst hs'
        exact StateId.noConfusion hf
    | restartingStep p obs p' s' hb hs =>
      rcases restarting_out hs with ⟨_, hp', hpol⟩ | ⟨_, _, _, hs'⟩ |
        ⟨_, _, _, hs'⟩
      · rcases hpol with ⟨he, hs'⟩ | ⟨he, hs'⟩
        · subst hp'
          exact he
        · subst hs'
          exact StateId.noConfusion hf
      · subst hs'
        exact StateId.noConfusion hf
      · subst hs'
        exact StateId.noConfusion hf
    | failedStep p p' s' hs =>
      exact absurd hs failed_no_succ
    | stoppedStep p p' s' hs =>
      exact absurd hs stopped_no_succ
  · intro b p c' h
    cases h with
    | failedStep p p' s' hs =>
      exact absurd hs failed_no_succ

theorem failed_has_error_witness :
    Step false (StateId.killing, pBase)
      (StateId.failed, { pBase with LastError := some Err.killFailed }) ∧
    ({ pBase with LastError := some Err.killFailed } : Process).LastError.isSome
      = true := by
  have hstep : Step false (StateId.killing, pBase)
      (StateId.failed, { pBase with LastError := some Err.killFailed }) :=
    Step.killingStep false pBase none StopObs.timeout
      { pBase with LastError := some Err.killFailed } StateId.failed rfl
  exact ⟨hstep, failed_has_error.1 false _ _ hstep rfl⟩

/-- C7: cancellation (the caller's context and the descriptor's `Stop`
handle are merged into one signal by `context.WithCancel`) routes
`starting`, `running`, `backoff` and `restarting` to `stopping` whenever
their select observes it (for `backoff`/`restarting`: whenever the budget
check does not fire first, which is the only point where their select
runs); the selects of `stopping` and `killing` have no cancellation arm,
so their possible transitions are identical whether or not cancellation
has fired. -/
theorem cancellation_routing :
    (∀ p : Process,
      (p.starting none StartObs.cancel).2 = some StateId.stopping) ∧
    (∀ p : Process, (p.running RunObs.cancel).2 = some StateId.stopping) ∧
    (∀ p : Process,
      ¬(p.MaxStartAttempts ≠ 0 ∧ p.StartAttempt + 1 ≥ p.MaxStartAttempts) →
      (p.backoff WaitObs.cancel).2 = some StateId.stopping) ∧
    (∀ p : Process,
      ¬(p.MaxRestarts ≠ 0 ∧ p.RestartCount + 1 ≥ p.MaxRestarts) →
      (p.restarting WaitObs.cancel).2 = some StateId.stopping) ∧
    (∀ (b b' : Bool) (p : Process) (c' : Cfg),
      Step b (StateId.stopping, p) c' ↔ Step b' (StateId.stopping, p) c') ∧
    (∀ (b b' : Bool) (p : Process) (c' : Cfg),
      Step b (StateId.killing, p) c' ↔ Step b' (StateId.killing, p) c') := by
  refine ⟨fun p => rfl, fun p => rfl, fun p hc => ?_, fun p hc => ?_, ?_, ?_⟩
  · have hx : p.backoff WaitObs.cancel
        = ({ p with StartAttempt := p.StartAttempt + 1 }, some StateId.stopping) := by
      simp only [Process.backoff]
      rw [if_neg hc]
    rw [hx]
  · have hx : p.restarting WaitObs.cancel
        = ({ p with RestartCount := p.RestartCount + 1 }, some StateId.stopping) := by
      simp only [Process.restarting]
      rw [if_neg hc]
    rw [hx]
  · intro b b' p c'
    constructor
    · intro h
      cases h with
      | stoppingStep p sigRes obs p' s' hs =>
        exact Step.stoppingStep _ p sigRes obs p' s' hs
    · intro h
      cases h with
      | stoppingStep p sigRes obs p' s' hs =>
        exact Step.stoppingStep _ p sigRes obs p' s' hs
  · intro b b' p c'
    constructor
    · intro h
      cases h with
      | killingStep p sigRes obs p' s' hs =>
        exact Step.killingStep _ p sigRes obs p' s' hs
    · intro h
      cases h with
      | killingStep p sigRes obs p' s' hs =>
        exact Step.killingStep _ p sigRes obs p' s' hs

theorem cancellation_routing_witness :
    ¬(pBase.MaxStartAttempts ≠ 0 ∧ pBase.StartAttempt + 1 ≥ pBase.MaxStartAttempts) ∧
    (Process.backoff pBase WaitObs.cancel).2 = some StateId.stopping :=
  ⟨by decide, cancellation_routing.2.2.1 pBase (by decide)⟩

/-- Every transition preserves the counter invariant. -/
theorem step_preserves_counterInv {b : Bool} {c c' : Cfg} (h : Step b c c')
    (hinv : CounterInv c) : CounterInv c' := by
  cases h with
  | startingStep p spawnRes obs p' s' hb hs =>
    rcases starting_out hs with ⟨e, _, hp', hs'⟩ | ⟨_, _, hp', hs'⟩ |
      ⟨e, _, _, hp', hpol⟩ | ⟨_, _, hp', hs'⟩
    · subst hp'
      subst hs'
      simp [CounterInv, TerminalId] at hinv ⊢
      try omega
    · subst hp'
      subst hs'
      simp [CounterInv, TerminalId] at hinv ⊢
      try omega
    · rcases hpol with ⟨_, hs'⟩ | ⟨_, hs'⟩ <;> subst hp' <;> subst hs' <;>
        · simp [CounterInv, TerminalId] at hinv ⊢
          try omega
    · subst hp'
      subst hs'
      simp [CounterInv, TerminalId] at hinv ⊢
      try omega
  | runningStep p obs p' s' hb hs =>
    rcases running_out hs with ⟨_, hp', hs'⟩ | ⟨e, _, hp', hpol⟩
    · subst hp'
      subst hs'
      simp [CounterInv, TerminalId] at hinv ⊢
      try omega
    · rcases hpol with ⟨_, hs'⟩ | ⟨_, hs'⟩ <;> subst hp' <;> subst hs' <;>
        · simp [CounterInv, TerminalId] at hinv ⊢
          try omega
  | stoppingStep p sigRes obs p' s' hs =>
    rcases stopping_out hs with ⟨e, _, hp', hs'⟩ | ⟨e, _, _, hp', hs'⟩ |
      ⟨_, _, hp', hs'⟩ <;> subst hp' <;> subst hs' <;>
      · simp [CounterInv, TerminalId] at hinv ⊢
        try omega
  | killingStep p sigRes obs p' s' hs =>
    rcases killing_out hs with ⟨e, _, hp', hs'⟩ | ⟨e, _, _, hp', hs'⟩ |
      ⟨_, _, hp', hs'⟩ <;> subst hp' <;> subst hs' <;>
      · simp [CounterInv, TerminalId] at hinv ⊢
        try omega
  | backoffStep p obs p' s' hb hs =>
    rcases backoff_out hs with ⟨hc, hp', hs'⟩ | ⟨hc, _, hp', hs'⟩ |
      ⟨hc, _, hp', hs'⟩ <;> subst hp' <;> subst hs' <;>
      · simp [CounterInv, TerminalId] at hinv ⊢
        try omega
  | restartingStep p obs p' s' hb hs =>
    rcases restarting_out hs with ⟨hc, hp', hpol⟩ | ⟨hc, _, hp', hs'⟩ |
      ⟨hc, _, hp', hs'⟩
    · rcases hpol with ⟨_, hs'⟩ | ⟨_, hs'⟩ <;> subst hp' <;> subst hs' <;>
        · simp [CounterInv, TerminalId] at hinv ⊢
          try omega
    · subst hp'
      subst hs'
      simp [CounterInv, TerminalId] at hinv ⊢
      try omega
    · subst hp'
      subst hs'
      simp [CounterInv, TerminalId] at hinv ⊢
      try omega
  | failedStep p p' s' hs =>
    exact absurd hs failed_no_succ
  | stoppedStep p p' s' hs =>
    exact absurd hs stopped_no_succ

/-- The counter invariant holds in every reachable configuration of a
fresh run. -/
theorem reachable_counterInv {p₀ : Process} {c : Cfg} (h0 : FreshRun p₀)
    (hr : Reachable p₀ c) : CounterInv c := by
  induction hr with
  | refl =>
    obtain ⟨h1, h2⟩ := h0
    simp [CounterInv, TerminalId, h1, h2]
    try omega
  | tail h1 h2 ih =>
    obtain ⟨b, hb⟩ := h2
    exact step_preserves_counterInv hb ih

/-- C9: in a fresh run with a positive budget, `StartAttempt` never exceeds
`MaxStartAttempts` and `RestartCount` never exceeds `MaxRestarts` in any
reachable configuration; when `backoff` exhausts the start-attempt budget
the resulting `StartAttempt` equals `MaxStartAttempts` exactly, and when
`restarting` terminates the run (to `failed` or `stopped`) the resulting
`RestartCount` equals `MaxRestarts` exactly; and with `MaxStartAttempts = 1`
the first entry into `backoff` fails immediately, for every observation
(so without waiting the backoff delay or re-spawning). -/
theorem counters_bounded (p₀ : Process) (c : Cfg) (h0 : FreshRun p₀)
    (hr : Reachable p₀ c) :
    (0 < c.2.MaxStartAttempts → c.2.StartAttempt ≤ c.2.MaxStartAttempts) ∧
    (0 < c.2.MaxRestarts → c.2.RestartCount ≤ c.2.MaxRestarts) ∧
    (∀ (obs : WaitObs) (p' : Process), c.1 = StateId.backoff →
      0 < c.2.MaxStartAttempts →
      c.2.backoff obs = (p', some StateId.failed) →
      p'.StartAttempt = c.2.MaxStartAttempts) ∧
    (∀ (obs : WaitObs) (p' : Process) (s' : StateId), c.1 = StateId.restarting →
      0 < c.2.MaxRestarts →
      c.2.restarting obs = (p', some s') → TerminalId s' →
      p'.RestartCount = c.2.MaxRestarts) ∧
    (∀ (q : Process) (obs : WaitObs), q.MaxStartAttempts = 1 →
      q.StartAttempt = 0 → (q.backoff obs).2 = some StateId.failed) := by
  obtain ⟨c1, p⟩ := c
  have hinv := reachable_counterInv h0 hr
  obtain ⟨hA, hR⟩ := hinv
  refine ⟨fun hm => (hA hm).1, fun hm => (hR hm).1, ?_, ?_, ?_⟩
  · intro obs p' hc1 hm hbo
    subst hc1
    have hbo' : p.backoff obs = (p', some StateId.failed) := hbo
    have hlt : p.StartAttempt < p.MaxStartAttempts := by
      rcases (hA hm).2 with ht | hlt
      · rcases ht with ht | ht <;> exact StateId.noConfusion ht
      · exact hlt
    rcases backoff_out hbo' with ⟨hc, hp', _⟩ | ⟨_, _, _, hs'⟩ | ⟨_, _, _, hs'⟩
    · subst hp'
      show p.StartAttempt + 1 = p.MaxStartAttempts
      omega
    · exact absurd hs'.symm (by intro hx; exact StateId.noConfusion hx)
    · exact absurd hs'.symm (by intro hx; exact StateId.noConfusion hx)
  · intro obs p' s' hc1 hm hro hterm
    subst hc1
    have hro' : p.restarting obs = (p', some s') := hro
    have hlt : p.RestartCount < p.MaxRestarts := by
      rcases (hR hm).2 with ht | hlt
      · rcases ht with ht | ht <;> exact StateId.noConfusion ht
      · exact hlt
    rcases restarting_out hro' with ⟨hc, hp', _⟩ | ⟨_, _, hp', hs'⟩ |
      ⟨_, _, hp', hs'⟩
    · subst hp'
      show p.RestartCount + 1 = p.MaxRestarts
      omega
    · subst hs'
      rcases hterm with ht | ht <;> exact StateId.noConfusion ht
    · subst hs'
      rcases hterm with ht | ht <;> exact StateId.noConfusion ht
  · intro q obs h1 h2
    have hc : q.MaxStartAttempts ≠ 0 ∧ q.StartAttempt + 1 ≥ q.MaxStartAttempts := by
      rw [h1, h2]
      omega
    have hx : q.backoff obs
        = ({ q with
              StartAttempt := q.StartAttempt + 1,
              LastError := some (Err.maxStartAttemptsReached q.LastError) },
          some StateId.failed) := by
      simp only [Process.backoff]
      rw [if_pos hc]
    rw [hx]

theorem counters_bounded_witness :
    FreshRun { pBase with MaxStartAttempts := 1 } ∧
    (Process.backoff { pBase with MaxStartAttempts := 1 } WaitObs.cancel).2
      = some StateId.failed :=
  ⟨⟨rfl, rfl⟩,
    (counters_bounded { pBase with MaxStartAttempts := 1 }
      (StateId.starting, { pBase with MaxStartAttempts := 1 }) ⟨rfl, rfl⟩
      Relation.ReflTransGen.refl).2.2.2.2
      { pBase with MaxStartAttempts := 1 } WaitObs.cancel rfl rfl⟩
